import Mathlib

/-!
Shallow embedding of the ES6 lowering pass in
`src/compiler/transforms/es6.ts` (namespace `ts.transform`), together with
proofs about its class lowering, constructor synthesis, decorator lowering
and property-name resolution.

Modelling conventions:
* TypeScript `undefined`-or-array values are modelled as `List` (empty =
  `undefined`) when the source only tests truthiness, and as `Option` when
  the distinction is observable (comment ranges, constructor bodies).
* `Debug.fail` aborts the whole pass; it is modelled as `Except.error`.
* The mutable `VisitorContext` is modelled by explicit state passing of
  `TCtx` (name-generation registry, hoisted variables, the
  `emitDecoratorMetadata` option).  The statement-buffer stack is strictly
  scoped, so each emitting function simply returns the list of statements
  it emits, in emission order.
* Node reference identity (`member !== accessors.firstAccessor`) is
  modelled by the member's index in the class member list.
-/

namespace ES6

/-- Binding name of a parameter: an identifier or a destructuring pattern. -/
inductive BindName where
  | idname (s : String)
  | patname (pid : Nat)
deriving DecidableEq

mutual
/-- Expressions of the (already lowered / baseline) grammar that the claims
need.  `extE` stands for an arbitrary opaque expression that carries no
construct this pass rewrites. -/
inductive Expr where
  | identE (s : String)
  | thisE
  | superE
  | strE (s : String)
  | numE (n : Nat)
  | undefE
  | callE (f : Expr) (args : ExprList)
  | accessE (obj : Expr) (field : String)
  | elemE (obj : Expr) (index : Expr)
  | assignE (lhs : Expr) (rhs : Expr)
  | arrayE (elems : ExprList)
  | spreadE (e : Expr)
  | extE (eid : Nat)
/-- Argument/element lists inside expressions (kept as a separate inductive
so that all recursions stay structural). -/
inductive ExprList where
  | nil
  | cons (head : Expr) (tail : ExprList)
end

/-- Embed a Lean list of expressions as an `ExprList`. -/
def el : List Expr → ExprList
  | [] => .nil
  | e :: es => .cons e (el es)

/-- Statements: an expression statement or an opaque statement with no
construct this pass rewrites. -/
inductive Stmt where
  | exprStmt (e : Expr)
  | otherStmt (sid : Nat)
deriving Nonempty

/-- Property names of class members, as handed back by the declaration-name
lookup: identifier, string/numeric literal, computed name (with a node id
used by the stable name generator), or a (never legal) binding pattern. -/
inductive PropName where
  | idname (s : String)
  | strname (s : String)
  | numname (n : Nat)
  | computedName (nid : Nat) (e : Expr)
  | patternName (pid : Nat)

/-- A constructor/method/accessor parameter.  `access` models the
`NodeFlags.AccessibilityModifier` bit, `decorators` the decorator
expressions attached to the parameter (empty list = no decorators). -/
structure Param where
  pname : BindName
  access : Bool
  decorators : List Expr
  isRest : Bool

/-- A constructor declaration.  `body = none` is a bodyless overload
signature.  `pinnedLead` is the comment-range lookup result
`getLeadingCommentRanges(node, onlyPinnedOrTripleSlashComments := true)`;
`leadRanges`/`trailRanges` the plain lookups; `attachedLead`/`attachedTrail`
the ranges attached by `factory.attachCommentRanges` (absent on parsed
nodes). -/
structure CtorDecl where
  params : List Param
  body : Option (List Stmt)
  pinnedLead : Option (List Nat)
  leadRanges : Option (List Nat)
  trailRanges : Option (List Nat)
  attachedLead : Option (List Nat)
  attachedTrail : Option (List Nat)

/-- A property (field) declaration. -/
structure PropDecl where
  pname : PropName
  isStatic : Bool
  init : Option Expr
  decorators : List Expr

/-- A method declaration. -/
structure MethodDecl where
  mname : PropName
  isStatic : Bool
  decorators : List Expr
  params : List Param
  body : Option (List Stmt)

/-- A get or set accessor declaration (the kind tag lives on the `Member`
constructor). -/
structure AccessorDecl where
  aname : PropName
  isStatic : Bool
  decorators : List Expr
  params : List Param
  body : Option (List Stmt)

/-- Class elements. `missingM` is the `MissingDeclaration` placeholder the
member transform produces for bodyless methods. -/
inductive Member where
  | ctorM (c : CtorDecl)
  | propM (p : PropDecl)
  | methodM (m : MethodDecl)
  | getA (a : AccessorDecl)
  | setA (a : AccessorDecl)
  | indexSig (iid : Nat)
  | missingM

/-- A class declaration.  `declName` is the identifier the declaration-name
binding resolves the class to (its public binding); `cname` is the
syntactic `node.name`; `heritage` is the single `extends` heritage clause
element, when present. -/
structure ClassDecl where
  cname : Option String
  declName : String
  decorators : List Expr
  heritage : Option Expr
  members : List Member

/-- The pieces of the mutable transform context the claims can observe:
the stable generated-name registry (node ids that already have a generated
name), the hoisted-variable registry, and the single configuration flag
for metadata emission. -/
structure TCtx where
  generatedMarks : List Nat
  hoisted : List String
  emitMeta : Bool

/-- Modelled from the spec: the name generator produces a stable unique
identifier per original (computed-name) node. -/
def genName (nid : Nat) : String := "_generated_" ++ toString nid

/-- Modelled from the spec: `createUniqueIdentifier` produces a
hint-scoped unique identifier. -/
def createUniqueIdentifier (hint : String) : String := hint ++ "_1"

/-- `ts.concatenate` on possibly absent (nonempty) arrays. -/
def concatenateC : Option (List Nat) → Option (List Nat) → Option (List Nat)
  | none, b => b
  | some a, none => some a
  | some a, some b => some (a ++ b)

mutual
/-- The generic recursive transform (`transformNode` / `accept`) restricted
to the expression grammar above: none of these expression forms carries a
construct this pass rewrites, so the dispatch always takes the generic
recursive-descent arm. -/
def transformExpr : Expr → Expr
  | .identE s => .identE s
  | .thisE => .thisE
  | .superE => .superE
  | .strE s => .strE s
  | .numE n => .numE n
  | .undefE => .undefE
  | .callE f args => .callE (transformExpr f) (transformExprList args)
  | .accessE o f => .accessE (transformExpr o) f
  | .elemE o i => .elemE (transformExpr o) (transformExpr i)
  | .assignE l r => .assignE (transformExpr l) (transformExpr r)
  | .arrayE es => .arrayE (transformExprList es)
  | .spreadE e => .spreadE (transformExpr e)
  | .extE eid => .extE eid
/-- Generic recursive transform of an expression list. -/
def transformExprList : ExprList → ExprList
  | .nil => .nil
  | .cons e es => .cons (transformExpr e) (transformExprList es)
end

/-- The generic recursive transform on statements (`visitStatement`). -/
def transformStmt : Stmt → Stmt
  | .exprStmt e => .exprStmt (transformExpr e)
  | .otherStmt sid => .otherStmt sid

/-- The generic transform of a parameter: accessibility modifiers and
decorators are elided (`transformNodeWorker` cases for modifier tokens and
`SyntaxKind.Decorator`), everything else is preserved. -/
def transformParam (p : Param) : Param :=
  { p with access := false, decorators := [] }

/-- `getParametersWithPropertyAssignments`: the constructor parameters with
an identifier name and an accessibility modifier, in parameter order
(absent array modelled as the empty list). -/
def getParametersWithPropertyAssignments (node : CtorDecl) : List Param :=
  node.params.filter (fun p =>
    (match p.pname with | .idname _ => true | .patname _ => false) && p.access)

/-- `getInitializedProperties`: the property declarations of the requested
static-ness that carry an initializer, in member order. -/
def getInitializedProperties (node : ClassDecl) (isStatic : Bool) : List PropDecl :=
  node.members.filterMap (fun m =>
    match m with
    | .propM p => if p.isStatic == isStatic && p.init.isSome then some p else none
    | _ => none)

/-- Modelled from the spec: `getFirstConstructorWithBody` (a tree utility
outside this source file) returns the first constructor member that has a
body. -/
def getFirstConstructorWithBody (node : ClassDecl) : Option CtorDecl :=
  node.members.findSome? (fun m =>
    match m with
    | .ctorM c => if c.body.isSome then some c else none
    | _ => none)

/-- `findInitialSuperCall`: the first body statement when it is an
expression statement whose expression is a call whose callee is the
`super` keyword. -/
def findInitialSuperCall (ctor : CtorDecl) : Option Stmt :=
  match ctor.body with
  | none => none
  | some stmts =>
    match stmts with
    | [] => none
    | s :: _ =>
      match s with
      | .exprStmt (.callE .superE _) => some s
      | _ => none

/-- The loop at the top of `transformConstructor` collecting the pinned
leading comments of bodyless constructor overload signatures. -/
def pinnedOverloadComments (node : ClassDecl) : Option (List Nat) :=
  node.members.foldl (fun acc m =>
    match m with
    | .ctorM c => if c.body.isNone then concatenateC acc c.pinnedLead else acc
    | _ => acc) none

/-- Whether a property name is a (non-nameable) binding-pattern form. -/
def isPattName : PropName → Bool
  | .patternName _ => true
  | _ => false

/-- `transformPropertyName`.  The source reads `context.getDeclarationName
(container)`, `nodeCanBeDecorated(container)` and `nodeIsDecorated
(container)`; these projections are passed here as `name`, `canDec` and
`isDec`.  `Debug.fail` on a binding pattern is modelled as `Except.error`.
The name-generation registry (`nodeHasGeneratedName` /
`getGeneratedNameForNode` / `hoistVariableDeclaration`) is modelled from
the spec via `TCtx`. -/
def transformPropertyName (ctx : TCtx) (name : PropName)
    (canDec isDec isPerInstance : Bool) : Except String (PropName × TCtx) :=
  match name with
  | .computedName nid e =>
    if !isPerInstance && ctx.generatedMarks.contains nid then
      .ok (.idname (genName nid), ctx)
    else
      let expression := transformExpr e
      if !isPerInstance && canDec && isDec then
        let g := genName nid
        let ctx2 : TCtx :=
          { ctx with generatedMarks := nid :: ctx.generatedMarks,
                     hoisted := g :: ctx.hoisted }
        .ok (.computedName nid (.assignE (.identE g) expression), ctx2)
      else
        .ok (.computedName nid expression, ctx)
  | .idname s => .ok (.idname s, ctx)
  | .strname s => .ok (.strname s, ctx)
  | .numname n => .ok (.numname n, ctx)
  | .patternName _ => .error "Binding patterns cannot be used as property names."

/-- `factory.createMemberAccessForPropertyName`: dot access for an
identifier, element access for literals and computed names. -/
def createMemberAccessForPropertyName (target : Expr) (name : PropName) : Expr :=
  match name with
  | .idname s => .accessE target s
  | .strname s => .elemE target (.strE s)
  | .numname n => .elemE target (.numE n)
  | .computedName _ e => .elemE target e
  | .patternName _ => .accessE target ""

/-- `transformPropertyDeclaration`: one `target.name = initializer`
assignment for an initialized property (static target is the class
declaration name, instance target is `this`). -/
def transformPropertyDeclaration (ctx : TCtx) (node : ClassDecl)
    (property : PropDecl) : Except String (Expr × TCtx) := do
  let isStatic := property.isStatic
  let target : Expr := if isStatic then .identE node.declName else .thisE
  let (name, ctx2) ← transformPropertyName ctx property.pname true
      (!property.decorators.isEmpty) (!isStatic)
  let rhs : Expr :=
    match property.init with
    | some e0 => transformExpr e0
    | none => .undefE
  .ok (.assignE (createMemberAccessForPropertyName target name) rhs, ctx2)

/-- `emitPropertyDeclarations`: one expression statement per property, in
property order. -/
def emitPropertyDeclarations (node : ClassDecl) :
    TCtx → List PropDecl → Except String (List Stmt × TCtx)
  | ctx, [] => .ok ([], ctx)
  | ctx, p :: rest => do
    let (e, ctx2) ← transformPropertyDeclaration ctx node p
    let (ss, ctx3) ← emitPropertyDeclarations node ctx2 rest
    .ok (Stmt.exprStmt e :: ss, ctx3)

/-- The synthesized rest parameter `...args`. -/
def restArgsParam : Param :=
  { pname := .idname "args", access := false, decorators := [], isRest := true }

/-- Text of an identifier binding name (binding patterns never reach the
uses of this projection). -/
def bindText : BindName → String
  | .idname s => s
  | .patname _ => ""

/-- The synthesized `this.<name> = <name>` statement for one parameter
property. -/
def paramPropAssignStmt (p : Param) : Stmt :=
  .exprStmt (.assignE (.accessE .thisE (bindText p.pname)) (.identE (bindText p.pname)))

/-- The synthesized forwarding base-constructor call `super(...args)`. -/
def superForwardStmt : Stmt :=
  .exprStmt (.callE .superE (el [.spreadE (.identE "args")]))

/-- `transformConstructor`.  Returns the (possibly synthesized)
constructor, or `none` when the class keeps no constructor.  Statement
emission into the pushed buffer is modelled by assembling
`superPart ++ paramPart ++ fieldPart ++ bodyPart` in emission order. -/
def transformConstructor (ctx : TCtx) (node : ClassDecl) (hasBaseType : Bool) :
    Except String (Option CtorDecl × TCtx) :=
  let ctorOpt := getFirstConstructorWithBody node
  let parameterPropertyAssignments : List Param :=
    match ctorOpt with
    | some c => getParametersWithPropertyAssignments c
    | none => []
  let instanceProps := getInitializedProperties node false
  let overloadComments := pinnedOverloadComments node
  if parameterPropertyAssignments.isEmpty && instanceProps.isEmpty then
    -- fast path: no rewrite needed; reattach overload-signature comments
    -- to a clone when such comments exist
    match overloadComments with
    | none => .ok (ctorOpt, ctx)
    | some lcr =>
      match ctorOpt with
      | none => .ok (none, ctx)
      | some c =>
        .ok (some { c with
          attachedLead := concatenateC (some lcr) c.leadRanges,
          attachedTrail := none }, ctx)
  else do
    let parameters : List Param :=
      match ctorOpt with
      | some c => c.params.map transformParam
      | none => if hasBaseType then [restArgsParam] else []
    let superCall : Option Stmt :=
      match ctorOpt with
      | some c => if hasBaseType then findInitialSuperCall c else none
      | none => none
    let superPart : List Stmt :=
      match ctorOpt with
      | some _ =>
        match superCall with
        | some s => [s]
        | none => []
      | none => if hasBaseType then [superForwardStmt] else []
    let paramPart : List Stmt :=
      parameterPropertyAssignments.map paramPropAssignStmt
    let (fieldPart, ctx1) ← emitPropertyDeclarations node ctx instanceProps
    let bodyPart : List Stmt :=
      match ctorOpt with
      | some c =>
        let sts := c.body.getD []
        -- source: `superCall ? ctor.body.statements
        --                    : ctor.body.statements.slice(1)`
        (if superCall.isSome then sts else sts.drop 1).map transformStmt
      | none => []
    let statements := superPart ++ paramPart ++ fieldPart ++ bodyPart
    let newCtor : CtorDecl :=
      match ctorOpt with
      | some c =>
        { c with params := parameters, body := some statements,
                 attachedLead := concatenateC overloadComments c.leadRanges,
                 attachedTrail := c.trailRanges }
      | none =>
        { params := parameters, body := some statements,
          pinnedLead := none, leadRanges := none, trailRanges := none,
          attachedLead := overloadComments, attachedTrail := none }
    .ok (some newCtor, ctx1)

/-- `transformMethodDeclaration`: a bodyless method becomes a
`MissingDeclaration` placeholder; otherwise decorators are stripped, the
name resolved (note: the `isPerInstance` argument is omitted at this call
site in the source, hence `false`), and parameters/body recursively
transformed. -/
def transformMethodDeclaration (ctx : TCtx) (m : MethodDecl) :
    Except String (Member × TCtx) :=
  match m.body with
  | none => .ok (.missingM, ctx)
  | some b => do
    let (name, ctx2) ← transformPropertyName ctx m.mname true
        (!m.decorators.isEmpty) false
    .ok (.methodM { mname := name, isStatic := m.isStatic, decorators := [],
                    params := m.params.map transformParam,
                    body := some (b.map transformStmt) }, ctx2)

/-- `transformGetAccessor` / `transformSetAccessor` (identical shape):
decorators stripped, name resolved (again with `isPerInstance` omitted),
parameters and body recursively transformed. -/
def transformAccessor (ctx : TCtx) (a : AccessorDecl) :
    Except String (AccessorDecl × TCtx) := do
  let (name, ctx2) ← transformPropertyName ctx a.aname true
      (!a.decorators.isEmpty) false
  .ok ({ aname := name, isStatic := a.isStatic, decorators := [],
         params := a.params.map transformParam,
         body := a.body.map (fun ss => ss.map transformStmt) }, ctx2)

/-- `transformNodeWorker` restricted to class elements, as invoked by
`visitNodeArrayOfClassElement`: constructors, property declarations and
index signatures are elided; methods and accessors are transformed. -/
def transformMemberWorker (ctx : TCtx) : Member → Except String (Option Member × TCtx)
  | .ctorM _ => .ok (none, ctx)
  | .propM _ => .ok (none, ctx)
  | .indexSig _ => .ok (none, ctx)
  | .missingM => .ok (some .missingM, ctx)
  | .methodM m => do
    let (m2, ctx2) ← transformMethodDeclaration ctx m
    .ok (some m2, ctx2)
  | .getA a => do
    let (a2, ctx2) ← transformAccessor ctx a
    .ok (some (.getA a2), ctx2)
  | .setA a => do
    let (a2, ctx2) ← transformAccessor ctx a
    .ok (some (.setA a2), ctx2)

/-- The member list visit: absent results are filtered out. -/
def transformMembers : TCtx → List Member → Except String (List Member × TCtx)
  | ctx, [] => .ok ([], ctx)
  | ctx, m :: rest => do
    let (mo, ctx2) ← transformMemberWorker ctx m
    let (ms, ctx3) ← transformMembers ctx2 rest
    match mo with
    | some m2 => .ok (m2 :: ms, ctx3)
    | none => .ok (ms, ctx3)

/-- Static flag of a class element. -/
def memberIsStatic : Member → Bool
  | .propM p => p.isStatic
  | .methodM m => m.isStatic
  | .getA a => a.isStatic
  | .setA a => a.isStatic
  | _ => false

/-- Decorator list of a class element (empty = none). -/
def memberDecorators : Member → List Expr
  | .propM p => p.decorators
  | .methodM m => m.decorators
  | .getA a => a.decorators
  | .setA a => a.decorators
  | _ => []

/-- Parameter list of a class element. -/
def memberParams : Member → List Param
  | .methodM m => m.params
  | .getA a => a.params
  | .setA a => a.params
  | .ctorM c => c.params
  | _ => []

/-- Declaration name of a class element (the declaration-name binding of a
member resolves to its own name). -/
def memberName : Member → PropName
  | .propM p => p.pname
  | .methodM m => m.mname
  | .getA a => a.aname
  | .setA a => a.aname
  | _ => .idname ""

/-- Modelled from the spec: `nodeCanBeDecorated` — members that can carry
decorators (properties, methods, accessors); constructors and the rest
cannot. -/
def nodeCanBeDecoratedM : Member → Bool
  | .propM _ => true
  | .methodM _ => true
  | .getA _ => true
  | .setA _ => true
  | _ => false

/-- Modelled from the spec (and the in-source comment `skip a member if it
or any of its parameters are not decorated`): a member counts as decorated
when it has decorators of its own or a decorated parameter. -/
def nodeOrChildIsDecoratedM (m : Member) : Bool :=
  !(memberDecorators m).isEmpty ||
  (memberParams m).any (fun p => !p.decorators.isEmpty)

/-- Is this class element a property declaration? -/
def isPropertyDeclarationM : Member → Bool
  | .propM _ => true
  | _ => false

/-- Modelled from the spec: `context.getClassMemberPrefix` — the public
class binding for static members, the conventional `prototype` reference
for instance members.  (Named `getClassMemberTarget` here.) -/
def getClassMemberTarget (node : ClassDecl) (member : Member) : Expr :=
  if memberIsStatic member then .identE node.declName
  else .accessE (.identE node.declName) "prototype"

/-- The declaration kinds distinguished by the metadata `switch`es. -/
inductive DeclKind where
  | classK
  | methodK
  | getK
  | setK
  | propK
  | otherK

/-- `shouldEmitTypeMetadata`. -/
def shouldEmitTypeMetadata : DeclKind → Bool
  | .methodK => true
  | .getK => true
  | .setK => true
  | .propK => true
  | _ => false

/-- `shouldEmitReturnTypeMetadata`. -/
def shouldEmitReturnTypeMetadata : DeclKind → Bool
  | .methodK => true
  | _ => false

/-- `shouldEmitParamTypesMetadata`. -/
def shouldEmitParamTypesMetadata : DeclKind → Bool
  | .classK => true
  | .methodK => true
  | .setK => true
  | _ => false

/-- A `__metadata("<tag>")` call (the serialized-type payload is an
explicit stub upstream and is left out, as in the source's `TODO`). -/
def metadataCall (tag : String) : Expr :=
  .callE (.identE "__metadata") (el [.strE tag])

/-- `emitSerializedTypeMetadata`: appends the applicable metadata calls. -/
def emitSerializedTypeMetadata (k : DeclKind) (expressions : List Expr) : List Expr :=
  let e1 := if shouldEmitTypeMetadata k
    then expressions ++ [metadataCall "design:type"] else expressions
  let e2 := if shouldEmitParamTypesMetadata k
    then e1 ++ [metadataCall "design:paramtypes"] else e1
  if shouldEmitReturnTypeMetadata k
    then e2 ++ [metadataCall "design:returntype"] else e2

/-- The indexed loop body of `emitDecoratorsOfParameters`: one
`__param(index, decorator)` wrapper per decorator of each decorated
parameter, parameter index ascending. -/
def paramDecoratorCalls : Nat → List Param → List Expr
  | _, [] => []
  | i, p :: rest =>
    (if !p.decorators.isEmpty then
      p.decorators.map (fun d =>
        Expr.callE (.identE "__param") (el [.numE i, transformExpr d]))
     else []) ++ paramDecoratorCalls (i + 1) rest

/-- `emitDecoratorsOfParameters`: pushes the wrapper calls onto the given
expression list. -/
def emitDecoratorsOfParameters (parameters : List Param)
    (expressions : List Expr) : List Expr :=
  expressions ++ paramDecoratorCalls 0 parameters

/-- `emitDecoratorsOfConstructor`: skipped when neither the class nor a
parameter of its (first bodied) constructor is decorated; otherwise emits
`<declName> = __decorate([...], <declName>)`. -/
def emitDecoratorsOfConstructor (ctx : TCtx) (node : ClassDecl) : List Stmt :=
  let decorators := node.decorators
  let ctorOpt := getFirstConstructorWithBody node
  let hasDecoratedParameters :=
    match ctorOpt with
    | some c => c.params.any (fun p => !p.decorators.isEmpty)
    | none => false
  if decorators.isEmpty && !hasDecoratedParameters then []
  else
    let decoratorExpressions := decorators.map transformExpr
    let decoratorExpressions :=
      match ctorOpt with
      | some c => emitDecoratorsOfParameters c.params decoratorExpressions
      | none => decoratorExpressions
    let decoratorExpressions :=
      if ctx.emitMeta then emitSerializedTypeMetadata .classK decoratorExpressions
      else decoratorExpressions
    [Stmt.exprStmt (.assignE (.identE node.declName)
      (.callE (.identE "__decorate")
        (el [.arrayE (el decoratorExpressions), .identE node.declName])))]

/-- `getExpressionForPropertyName`: the expression form of a member's
resolved name — the inner expression of a computed name, a fresh string
literal for a string-literal name, and `undefined` for any other resolved
form (identifier and numeric names fall through both tests). -/
def getExpressionForPropertyName (ctx : TCtx) (container : Member) :
    Except String (Expr × TCtx) := do
  let (name, ctx2) ← transformPropertyName ctx (memberName container)
      (nodeCanBeDecoratedM container) (!(memberDecorators container).isEmpty) false
  match name with
  | .computedName _ e => .ok (e, ctx2)
  | .strname s => .ok (.strE s, ctx2)
  | _ => .ok (.undefE, ctx2)

/-- The accessor-pair lookup result: member-list indices of the
first/second declared accessor of the pair and of its get/set accessor. -/
structure AllAccessors where
  firstIdx : Nat
  secondIdx : Option Nat
  getIdx : Option Nat
  setIdx : Option Nat

/-- Accessor payload of a member, when it is an accessor. -/
def accessorDeclOf : Member → Option AccessorDecl
  | .getA a => some a
  | .setA a => some a
  | _ => none

/-- Accessor kind of a member: `some false` for a get accessor,
`some true` for a set accessor. -/
def accessorKindOf : Member → Option Bool
  | .getA _ => some false
  | .setA _ => some true
  | _ => none

/-- Textual key of a property name; computed names (and patterns) have no
static key. -/
def propNameKey : PropName → Option String
  | .idname s => some s
  | .strname s => some s
  | .numname n => some (toString n)
  | _ => none

/-- Does this member pair up with an accessor of the given name key and
static-ness? -/
def accessorMatches (key : String) (isStatic : Bool) (m : Member) : Bool :=
  match accessorDeclOf m with
  | some a => a.isStatic == isStatic && propNameKey a.aname == some key
  | none => false

/-- Forward scan for the accessor pair: first/second matching index, and
the first get-kind and set-kind matching indices. -/
def scanAccessors (key : String) (isStatic : Bool) :
    Nat → List Member → Option Nat × Option Nat × Option Nat × Option Nat
  | _, [] => (none, none, none, none)
  | i, m :: rest =>
    if accessorMatches key isStatic m then
      let (f2, _, g2, s2) := scanAccessors key isStatic (i + 1) rest
      (some i, f2,
       (if accessorKindOf m == some false then some i else g2),
       (if accessorKindOf m == some true then some i else s2))
    else
      scanAccessors key isStatic (i + 1) rest

/-- Modelled from the spec: `getAllAccessorDeclarations` (a tree utility
outside this source file) resolves the get/set pair of an accessor among
the class members: accessors pair up when they have the same non-computed
property name and the same static-ness; first/second are by declaration
order; a dynamically (computed) named accessor pairs only with itself. -/
def getAllAccessorDeclarations (members : List Member) (selfIdx : Nat)
    (self : AccessorDecl) (selfIsSet : Bool) : AllAccessors :=
  match propNameKey self.aname with
  | none =>
    { firstIdx := selfIdx, secondIdx := none,
      getIdx := if selfIsSet then none else some selfIdx,
      setIdx := if selfIsSet then some selfIdx else none }
  | some key =>
    let (f, s, g, se) := scanAccessors key self.isStatic 0 members
    { firstIdx := f.getD selfIdx, secondIdx := s, getIdx := g, setIdx := se }

/-- The shared tail of `emitDecoratorsOfMember` once the decorator list and
the decoratable parameter list are chosen: build the expression list, then
emit either the bare `__decorate` call (fields) or the
`Object.defineProperty(..., __decorate(..., Object.getOwnPropertyDescriptor
(...)))` round trip (other members).  The three property-name resolutions
happen in source evaluation order. -/
def emitMemberDecorateCore (ctx : TCtx) (node : ClassDecl) (member : Member)
    (decorators : List Expr) (parameters : Option (List Param)) :
    Except String (List Stmt × TCtx) := do
  let exprs0 := decorators.map transformExpr
  let exprs1 :=
    match parameters with
    | some ps => emitDecoratorsOfParameters ps exprs0
    | none => exprs0
  -- note: the source passes `node` (the class) to
  -- `emitSerializedTypeMetadata` here, so the class kind is used
  let exprs :=
    if ctx.emitMeta then emitSerializedTypeMetadata .classK exprs1 else exprs1
  let target := getClassMemberTarget node member
  let (n1, ctxa) ← getExpressionForPropertyName ctx member
  if isPropertyDeclarationM member then
    .ok ([Stmt.exprStmt (.callE (.identE "__decorate")
      (el [.arrayE (el exprs), target, n1]))], ctxa)
  else do
    let (n2, ctxb) ← getExpressionForPropertyName ctxa member
    let (n3, ctxc) ← getExpressionForPropertyName ctxb member
    .ok ([Stmt.exprStmt (.callE (.accessE (.identE "Object") "defineProperty")
      (el [target, n3,
        .callE (.identE "__decorate")
          (el [.arrayE (el exprs), target, n1,
            .callE (.accessE (.identE "Object") "getOwnPropertyDescriptor")
              (el [target, n2])])]))], ctxc)

/-- `emitDecoratorsOfMember`.  For an accessor with a body, only the
first-declared accessor of its pair is processed (the second returns
nothing); the decorator list falls back to the paired accessor's when the
first has none, and only the set accessor's parameters are decoratable.
For methods with a body, the method's own parameters are decoratable. -/
def emitDecoratorsOfMember (ctx : TCtx) (node : ClassDecl) (selfIdx : Nat)
    (member : Member) : Except String (List Stmt × TCtx) :=
  let accBranch : Option (AccessorDecl × Bool) :=
    match member with
    | .getA a => if a.body.isSome then some (a, false) else none
    | .setA a => if a.body.isSome then some (a, true) else none
    | _ => none
  match accBranch with
  | some (a, isSet) =>
    let accessors := getAllAccessorDeclarations node.members selfIdx a isSet
    if selfIdx == accessors.firstIdx then
      let decorators :=
        if !a.decorators.isEmpty then a.decorators
        else
          match accessors.secondIdx with
          | some j => memberDecorators ((node.members.get? j).getD .missingM)
          | none => []
      let parameters : Option (List Param) :=
        match accessors.setIdx with
        | some j => some (memberParams ((node.members.get? j).getD .missingM))
        | none => none
      emitMemberDecorateCore ctx node member decorators parameters
    else
      .ok ([], ctx)
  | none =>
    let decorators := memberDecorators member
    let parameters : Option (List Param) :=
      match member with
      | .methodM m => if m.body.isSome then some m.params else none
      | _ => none
    emitMemberDecorateCore ctx node member decorators parameters

/-- `emitDecoratorsOfMembers`: the loop over the class members of one
static-ness group, skipping the other group, non-decoratable members and
undecorated members. -/
def emitDecoratorsOfMembersFrom (node : ClassDecl) (isStatic : Bool) :
    TCtx → Nat → List Member → Except String (List Stmt × TCtx)
  | ctx, _, [] => .ok ([], ctx)
  | ctx, i, m :: rest =>
    if memberIsStatic m != isStatic then
      emitDecoratorsOfMembersFrom node isStatic ctx (i + 1) rest
    else if !nodeCanBeDecoratedM m || !nodeOrChildIsDecoratedM m then
      emitDecoratorsOfMembersFrom node isStatic ctx (i + 1) rest
    else do
      let (ss, ctx2) ← emitDecoratorsOfMember ctx node i m
      let (rest2, ctx3) ← emitDecoratorsOfMembersFrom node isStatic ctx2 (i + 1) rest
      .ok (ss ++ rest2, ctx3)

/-- `emitDecoratorsOfMembers` over the whole member list. -/
def emitDecoratorsOfMembers (ctx : TCtx) (node : ClassDecl) (isStatic : Bool) :
    Except String (List Stmt × TCtx) :=
  emitDecoratorsOfMembersFrom node isStatic ctx 0 node.members

/-- `emitDecoratorsOfClass`: instance members, then static members, then
the constructor (class-level) decoration. -/
def emitDecoratorsOfClass (ctx : TCtx) (node : ClassDecl) :
    Except String (List Stmt × TCtx) := do
  let (s1, ctx1) ← emitDecoratorsOfMembers ctx node false
  let (s2, ctx2) ← emitDecoratorsOfMembers ctx1 node true
  let s3 := emitDecoratorsOfConstructor ctx2 node
  .ok (s1 ++ s2 ++ s3, ctx2)

/-- Output statements produced for a class declaration: ordinary trailing
statements, a kept class declaration, or the `let <name> = class
<internal> ...` rewriting used for decorated classes. -/
inductive OutStmt where
  | plainS (s : Stmt)
  | classDeclStmt (name : Option String) (heritage : Option Expr)
      (members : List Member)
  | letClassStmt (publicName : String) (internalName : Option String)
      (heritage : Option Expr) (members : List Member)

/-- `transformClassDeclaration`.  The visitor-facing return value of the
source function is always `undefined`; what reaches the output is what was
emitted into the enclosing statement buffer, returned here as the
`List OutStmt`. -/
def transformClassDeclaration (ctx : TCtx) (node : ClassDecl) :
    Except String (List OutStmt × TCtx) := do
  let heritage := node.heritage
  let (ctorOpt, ctx1) ← transformConstructor ctx node heritage.isSome
  let (members0, ctx2) ← transformMembers ctx1 node.members
  let members :=
    match ctorOpt with
    | some c => Member.ctorM c :: members0
    | none => members0
  let classPart : List OutStmt :=
    if !node.decorators.isEmpty then
      [OutStmt.letClassStmt node.declName (node.cname.map createUniqueIdentifier)
        heritage members]
    else
      -- the source constructs the updated class declaration node here but
      -- neither emits nor returns it (the local `newNode` is unused), so
      -- nothing reaches the output for the class itself
      let _newNode := OutStmt.classDeclStmt node.cname heritage members
      []
  let staticProps := getInitializedProperties node true
  let (staticStmts, ctx3) ← emitPropertyDeclarations node ctx2 staticProps
  let (decoStmts, ctx4) ← emitDecoratorsOfClass ctx3 node
  .ok (classPart ++ staticStmts.map OutStmt.plainS ++ decoStmts.map OutStmt.plainS,
       ctx4)

/-! ### Claim-side (declarative) helper definitions -/

/-- Whether an `Except` result is a success. -/
def isOkE {α : Type} : Except String α → Bool
  | .ok _ => true
  | .error _ => false

/-- Declarative form of an instance-scoped resolved property name: only a
computed name changes (its expression is recursively transformed). -/
def resolvedInstanceNameSpec : PropName → PropName
  | .computedName nid e => .computedName nid (transformExpr e)
  | n => n

/-- Declarative form of the `this.<field> = <initializer>` statement
synthesized for one initialized instance field. -/
def instanceFieldStmtSpec (p : PropDecl) : Stmt :=
  .exprStmt (.assignE
    (createMemberAccessForPropertyName .thisE (resolvedInstanceNameSpec p.pname))
    (match p.init with
     | some e => transformExpr e
     | none => .undefE))

/-- One parameter's worth of `__param(index, decorator)` wrappers. -/
def wrapOne (ip : Nat × Param) : List Expr :=
  ip.2.decorators.map (fun d =>
    Expr.callE (.identE "__param") (el [.numE ip.1, transformExpr d]))

/-- Declarative form of the parameter-decorator wrappers: per decorated
parameter in ascending index order, decorators in source order. -/
def paramWrapperSpec (ps : List Param) : List Expr :=
  ps.enum.flatMap wrapOne

/-- Parameters of the class's first bodied constructor (empty if none). -/
def ctorParamsOf (node : ClassDecl) : List Param :=
  match getFirstConstructorWithBody node with
  | some c => c.params
  | none => []

/-- The expression a member's non-computed resolved name contributes as the
`__decorate` name argument: a string literal for string names, `undefined`
for identifier and numeric names.  (Only meaningful for names that carry a
textual key.) -/
def propNameRefExprSpec : PropName → Expr
  | .strname t => .strE t
  | _ => .undefE

/-- Declarative form of the member-level decorate statement for a
non-field member. -/
def memberDecorateStmtSpec (target nameE : Expr) (L : List Expr) : Stmt :=
  .exprStmt (.callE (.accessE (.identE "Object") "defineProperty")
    (el [target, nameE,
      .callE (.identE "__decorate")
        (el [.arrayE (el L), target, nameE,
          .callE (.accessE (.identE "Object") "getOwnPropertyDescriptor")
            (el [target, nameE])])]))

/-- Per-member, in-declaration-order decomposition of the statements one
static-ness group of the member-level decorator loop emits: members of the
other group (or filtered out) contribute nothing, each remaining member
contributes its own emission, and contributions are concatenated in member
order. -/
inductive MemberChunks (node : ClassDecl) (isStatic : Bool) :
    TCtx → Nat → List Member → List Stmt → TCtx → Prop where
  | nil (ctx : TCtx) (i : Nat) : MemberChunks node isStatic ctx i [] [] ctx
  | skip (ctx : TCtx) (i : Nat) (m : Member) (rest : List Member)
      (out : List Stmt) (ctx2 : TCtx)
      (hskip : (memberIsStatic m != isStatic) = true ∨
        (!nodeCanBeDecoratedM m || !nodeOrChildIsDecoratedM m) = true)
      (htail : MemberChunks node isStatic ctx (i + 1) rest out ctx2) :
      MemberChunks node isStatic ctx i (m :: rest) out ctx2
  | emit (ctx : TCtx) (i : Nat) (m : Member) (rest : List Member)
      (ss : List Stmt) (ctx1 : TCtx) (out : List Stmt) (ctx2 : TCtx)
      (hgroup : (memberIsStatic m != isStatic) = false)
      (hdec : (!nodeCanBeDecoratedM m || !nodeOrChildIsDecoratedM m) = false)
      (hemit : emitDecoratorsOfMember ctx node i m = .ok (ss, ctx1))
      (htail : MemberChunks node isStatic ctx1 (i + 1) rest out ctx2) :
      MemberChunks node isStatic ctx i (m :: rest) (ss ++ out) ctx2

/-! ### Concrete sample inputs -/

/-- An initial transform context. -/
def ctx0 : TCtx := { generatedMarks := [], hoisted := [], emitMeta := false }

/-- An opaque body statement. -/
def fooStmt : Stmt := .otherStmt 100

/-- Another opaque body statement. -/
def barStmt : Stmt := .otherStmt 101

/-- A bare `super()` call statement. -/
def superStmt : Stmt := .exprStmt (.callE .superE (el []))

/-- An initialized instance field `y = 1`. -/
def propY : PropDecl :=
  { pname := .idname "y", isStatic := false, init := some (.numE 1), decorators := [] }

/-- An initialized static field `z = 2`. -/
def propZ : PropDecl :=
  { pname := .idname "z", isStatic := true, init := some (.numE 2), decorators := [] }

/-- C1 failing input, base-typed case: constructor body `super(); foo();`. -/
def ctorC1 : CtorDecl :=
  { params := [], body := some [superStmt, fooStmt], pinnedLead := none,
    leadRanges := none, trailRanges := none, attachedLead := none,
    attachedTrail := none }

/-- C1 failing input: `class C extends B { y = 1; constructor() { super(); foo(); } }`. -/
def clsC1 : ClassDecl :=
  { cname := some "C", declName := "C", decorators := [],
    heritage := some (.identE "B"), members := [.propM propY, .ctorM ctorC1] }

/-- C1 failing input, base-less case: constructor body `foo(); bar();`. -/
def ctorC1b : CtorDecl :=
  { params := [], body := some [fooStmt, barStmt], pinnedLead := none,
    leadRanges := none, trailRanges := none, attachedLead := none,
    attachedTrail := none }

/-- C1 failing input: `class C { y = 1; constructor() { foo(); bar(); } }`. -/
def clsC1b : ClassDecl :=
  { cname := some "C", declName := "C", decorators := [], heritage := none,
    members := [.propM propY, .ctorM ctorC1b] }

/-- C2 failing input: `class C { y = 1; static z = 2; }`, no decorators. -/
def clsC2 : ClassDecl :=
  { cname := some "C", declName := "C", decorators := [], heritage := none,
    members := [.propM propY, .propM propZ] }

/-- C3 counterexample: the real constructor (with body, no parameter
properties). -/
def ctorC3 : CtorDecl :=
  { params := [{ pname := .idname "p", access := false, decorators := [],
                 isRest := false }],
    body := some [.otherStmt 5], pinnedLead := none, leadRanges := none,
    trailRanges := none, attachedLead := none, attachedTrail := none }

/-- C3 counterexample: a bodyless constructor overload signature carrying a
pinned leading comment (range id 7). -/
def ctorC3overload : CtorDecl :=
  { params := [], body := none, pinnedLead := some [7], leadRanges := none,
    trailRanges := none, attachedLead := none, attachedTrail := none }

/-- C3 counterexample class: overload signature + implementation, no
parameter properties, no initialized instance fields. -/
def clsC3 : ClassDecl :=
  { cname := some "C", declName := "C", decorators := [], heritage := none,
    members := [.ctorM ctorC3overload, .ctorM ctorC3] }

/-- What the fast path actually returns on `clsC3`: a clone of the
constructor with the overload comments attached. -/
def ctorC3attached : CtorDecl :=
  { ctorC3 with attachedLead := some [7], attachedTrail := none }

/-- C4 witness class: `class D extends B { y = 1; }`. -/
def clsW4 : ClassDecl :=
  { cname := some "D", declName := "D", decorators := [],
    heritage := some (.identE "B"), members := [.propM propY] }

/-- C5 witness constructor: `constructor(public p) {}`. -/
def ctorW5 : CtorDecl :=
  { params := [{ pname := .idname "p", access := true, decorators := [],
                 isRest := false }],
    body := some [], pinnedLead := none, leadRanges := none,
    trailRanges := none, attachedLead := none, attachedTrail := none }

/-- C5 witness class. -/
def clsW5 : ClassDecl :=
  { cname := some "E", declName := "E", decorators := [], heritage := none,
    members := [.ctorM ctorW5] }

/-- C6 witness constructor: `constructor(@d2 a, b) {}`. -/
def ctorW6 : CtorDecl :=
  { params := [{ pname := .idname "a", access := false,
                 decorators := [.identE "d2"], isRest := false },
               { pname := .idname "b", access := false, decorators := [],
                 isRest := false }],
    body := some [], pinnedLead := none, leadRanges := none,
    trailRanges := none, attachedLead := none, attachedTrail := none }

/-- C6 witness class: `@dec class F { constructor(@d2 a, b) {} }`. -/
def clsW6 : ClassDecl :=
  { cname := some "F", declName := "F", decorators := [.identE "dec"],
    heritage := none, members := [.ctorM ctorW6] }

/-- C7 witness get accessor: `get x() {}` (undecorated). -/
def getW7 : AccessorDecl :=
  { aname := .idname "x", isStatic := false, decorators := [], params := [],
    body := some [] }

/-- C7 witness set accessor: `@dec set x(v) {}`. -/
def setW7 : AccessorDecl :=
  { aname := .idname "x", isStatic := false, decorators := [.identE "dec"],
    params := [{ pname := .idname "v", access := false, decorators := [],
                 isRest := false }],
    body := some [] }

/-- C7 witness class: the accessor pair `get x` / `set x`. -/
def clsW7 : ClassDecl :=
  { cname := some "G", declName := "G", decorators := [], heritage := none,
    members := [.getA getW7, .setA setW7] }

/-- C10 witness class: a class with no decorations at all. -/
def clsW10 : ClassDecl :=
  { cname := some "H", declName := "H", decorators := [], heritage := none,
    members := [.propM propY] }

/-- The synthesized `this.y = 1` statement for `propY`. -/
def thisYStmt : Stmt := .exprStmt (.assignE (.accessE .thisE "y") (.numE 1))

/-! ### Helper lemmas -/

theorem transformPropertyName_perInstance (ctx : TCtx) (name : PropName)
    (canDec isDec : Bool) (h : isPattName name = false) :
    transformPropertyName ctx name canDec isDec true =
      .ok (resolvedInstanceNameSpec name, ctx) := by
  cases name <;> simp_all [transformPropertyName, resolvedInstanceNameSpec, isPattName]

theorem emitPropertyDeclarations_instance (node : ClassDecl) :
    ∀ (props : List PropDecl) (ctx : TCtx),
    (props.all fun p => !p.isStatic && !isPattName p.pname) = true →
    emitPropertyDeclarations node ctx props =
      .ok (props.map instanceFieldStmtSpec, ctx) := by
  intro props
  induction props with
  | nil => intro ctx _; rfl
  | cons p rest ih =>
    intro ctx hall
    rw [List.all_cons, Bool.and_eq_true] at hall
    obtain ⟨hp, hrest⟩ := hall
    rw [Bool.and_eq_true] at hp
    have hstat : p.isStatic = false := by
      cases hps : p.isStatic <;> simp [hps] at hp ⊢
    have hpatt : isPattName p.pname = false := by
      cases hpn : isPattName p.pname <;> simp [hpn] at hp ⊢
    simp only [emitPropertyDeclarations, transformPropertyDeclaration, hstat,
      Bool.not_false, transformPropertyName_perInstance _ _ _ _ hpatt,
      List.map_cons]
    simp only [Bind.bind, Except.bind]
    rw [ih ctx hrest]
    simp [instanceFieldStmtSpec]

theorem getInitializedProperties_static (node : ClassDecl) (b : Bool) :
    ∀ p ∈ getInitializedProperties node b, p.isStatic = b := by
  intro p hp
  unfold getInitializedProperties at hp
  rw [List.mem_filterMap] at hp
  obtain ⟨m, _, he⟩ := hp
  cases m <;> simp at he
  obtain ⟨⟨h1, _⟩, rfl⟩ := he
  exact h1

theorem findInitialSuperCall_shape (c : CtorDecl) (s : Stmt)
    (h : findInitialSuperCall c = some s) :
    ∃ args, s = .exprStmt (.callE .superE args) := by
  unfold findInitialSuperCall at h
  split at h
  · exact absurd h (by simp)
  · split at h
    · exact absurd h (by simp)
    · split at h
      · next args heq =>
        cases h
        exact ⟨_, rfl⟩
      · exact absurd h (by simp)

theorem metadataClassK (l : List Expr) :
    emitSerializedTypeMetadata .classK l = l ++ [metadataCall "design:paramtypes"] := rfl

theorem paramDecoratorCalls_eq :
    ∀ (ps : List Param) (i : Nat),
    paramDecoratorCalls i ps = (List.enumFrom i ps).flatMap wrapOne := by
  intro ps
  induction ps with
  | nil => intro i; rfl
  | cons p rest ih =>
    intro i
    simp only [paramDecoratorCalls, List.enumFrom, List.flatMap_cons, ih (i + 1)]
    cases hd : p.decorators with
    | nil => simp [wrapOne, hd]
    | cons d ds => simp [wrapOne, hd]

theorem emitDecoratorsOfParameters_eq (ps : List Param) (l : List Expr) :
    emitDecoratorsOfParameters ps l = l ++ paramWrapperSpec ps := by
  unfold emitDecoratorsOfParameters paramWrapperSpec
  rw [paramDecoratorCalls_eq]
  rfl

theorem scanAccessors_none (key : String) (st : Bool) :
    ∀ (xs : List Member) (i : Nat),
    (xs.all fun m => !accessorMatches key st m) = true →
    scanAccessors key st i xs = (none, none, none, none) := by
  intro xs
  induction xs with
  | nil => intro i _; rfl
  | cons x rest ih =>
    intro i hall
    rw [List.all_cons, Bool.and_eq_true] at hall
    obtain ⟨hx, hrest⟩ := hall
    have hx2 : accessorMatches key st x = false := by
      cases hv : accessorMatches key st x with
      | false => rfl
      | true => rw [hv] at hx; exact absurd hx (by simp)
    simp only [scanAccessors, hx2, Bool.false_eq_true, if_false]
    exact ih (i + 1) hrest

theorem scanAccessors_append_no (key : String) (st : Bool) (ys : List Member) :
    ∀ (xs : List Member) (i : Nat),
    (xs.all fun m => !accessorMatches key st m) = true →
    scanAccessors key st i (xs ++ ys) = scanAccessors key st (i + xs.length) ys := by
  intro xs
  induction xs with
  | nil => intro i _; simp
  | cons x rest ih =>
    intro i hall
    rw [List.all_cons, Bool.and_eq_true] at hall
    obtain ⟨hx, hrest⟩ := hall
    have hx2 : accessorMatches key st x = false := by
      cases hv : accessorMatches key st x with
      | false => rfl
      | true => rw [hv] at hx; exact absurd hx (by simp)
    simp only [List.cons_append, scanAccessors, hx2, Bool.false_eq_true, if_false,
      List.append_eq]
    rw [ih (i + 1) hrest]
    congr 1
    simp only [List.length_cons]
    omega

theorem get?_append_add {α : Type} :
    ∀ (xs ys : List α) (n : Nat), (xs ++ ys).get? (xs.length + n) = ys.get? n := by
  intro xs
  induction xs with
  | nil => intro ys n; simp
  | cons x rest ih =>
    intro ys n
    have harith : (x :: rest).length + n = (rest.length + n) + 1 := by
      simp only [List.length_cons]; omega
    rw [harith, List.cons_append, List.get?_cons_succ]
    exact ih ys n

theorem scanAccessors_layout (key : String) (st : Bool)
    (pre mid post : List Member) (m1 m2 : Member)
    (hm1 : accessorMatches key st m1 = true)
    (hm2 : accessorMatches key st m2 = true)
    (hpre : (pre.all fun m => !accessorMatches key st m) = true)
    (hmid : (mid.all fun m => !accessorMatches key st m) = true)
    (hpost : (post.all fun m => !accessorMatches key st m) = true) :
    scanAccessors key st 0 (pre ++ m1 :: (mid ++ m2 :: post)) =
      (some pre.length, some (pre.length + 1 + mid.length),
       (if accessorKindOf m1 == some false then some pre.length
        else if accessorKindOf m2 == some false
          then some (pre.length + 1 + mid.length) else none),
       (if accessorKindOf m1 == some true then some pre.length
        else if accessorKindOf m2 == some true
          then some (pre.length + 1 + mid.length) else none)) := by
  have h2 : scanAccessors key st (pre.length + 1 + mid.length) (m2 :: post) =
      (some (pre.length + 1 + mid.length), none,
       (if accessorKindOf m2 == some false
        then some (pre.length + 1 + mid.length) else none),
       (if accessorKindOf m2 == some true
        then some (pre.length + 1 + mid.length) else none)) := by
    simp only [scanAccessors, hm2, if_true]
    rw [scanAccessors_none key st post _ hpost]
  have h3 : scanAccessors key st (pre.length + 1) (mid ++ m2 :: post) =
      (some (pre.length + 1 + mid.length), none,
       (if accessorKindOf m2 == some false
        then some (pre.length + 1 + mid.length) else none),
       (if accessorKindOf m2 == some true
        then some (pre.length + 1 + mid.length) else none)) := by
    rw [scanAccessors_append_no key st (m2 :: post) mid (pre.length + 1) hmid]
    exact h2
  rw [scanAccessors_append_no key st (m1 :: (mid ++ m2 :: post)) pre 0 hpre,
    Nat.zero_add]
  simp only [scanAccessors, hm1, if_true]
  rw [h3]

theorem getExpressionForPropertyName_key (ctx : TCtx) (container : Member)
    (k : String) (hk : propNameKey (memberName container) = some k) :
    getExpressionForPropertyName ctx container =
      .ok (propNameRefExprSpec (memberName container), ctx) := by
  unfold getExpressionForPropertyName
  cases hname : memberName container with
  | idname t =>
    simp [hname, transformPropertyName, Bind.bind, Except.bind, propNameRefExprSpec]
  | strname t =>
    simp [hname, transformPropertyName, Bind.bind, Except.bind, propNameRefExprSpec]
  | numname n =>
    simp [hname, transformPropertyName, Bind.bind, Except.bind, propNameRefExprSpec]
  | computedName nid e => rw [hname] at hk; exact absurd hk (by simp [propNameKey])
  | patternName pid => rw [hname] at hk; exact absurd hk (by simp [propNameKey])

theorem get?_append_self {α : Type} (xs : List α) (y : α) (ys : List α) :
    (xs ++ y :: ys).get? xs.length = some y := by
  have h := get?_append_add xs (y :: ys) 0
  rw [Nat.add_zero] at h
  simpa using h

theorem emitMemberDecorateCore_nonprop (ctx : TCtx) (node : ClassDecl)
    (member : Member) (decorators : List Expr) (ps : List Param) (k : String)
    (hk : propNameKey (memberName member) = some k)
    (hnp : isPropertyDeclarationM member = false) :
    emitMemberDecorateCore ctx node member decorators (some ps) =
      .ok ([memberDecorateStmtSpec (getClassMemberTarget node member)
        (propNameRefExprSpec (memberName member))
        ((decorators.map transformExpr) ++ paramWrapperSpec ps ++
         (if ctx.emitMeta then [metadataCall "design:paramtypes"] else []))],
        ctx) := by
  cases hm : ctx.emitMeta <;>
    simp [emitMemberDecorateCore, hm,
      getExpressionForPropertyName_key ctx member k hk, Bind.bind, Except.bind,
      hnp, emitDecoratorsOfParameters_eq, metadataClassK, memberDecorateStmtSpec]

/-! ### Claims -/

/-- C1 (code bug): when the first original body statement is a base call it
is emitted first AND kept in the re-emitted remainder (the output body
contains `super()` twice), and when there is no emitted base call the
first original statement is dropped from the remainder.  The source
computes `superCall ? ctor.body.statements : ctor.body.statements.slice(1)`,
which is the claimed behavior inverted. -/
theorem c1_code_eval :
    transformConstructor ctx0 clsC1 true =
      .ok (some { ctorC1 with
        body := some [superStmt, thisYStmt, superStmt, fooStmt] }, ctx0) ∧
    transformConstructor ctx0 clsC1b false =
      .ok (some { ctorC1b with body := some [thisYStmt, barStmt] }, ctx0) :=
  ⟨rfl, rfl⟩

/-- C2 (code bug): for a non-decorated class declaration flagged for
lowering, the pass emits only the trailing statements (here the static
field assignment `C.z = 2`) and produces no class declaration at all —
the updated class node is built but never emitted or returned. -/
theorem c2_code_eval :
    transformClassDeclaration ctx0 clsC2 =
      .ok ([OutStmt.plainS (.exprStmt
        (.assignE (.accessE (.identE "C") "z") (.numE 2)))], ctx0) := rfl

/-- C3 counterexample: on a class with no parameter properties and no
initialized instance fields, but with a bodyless constructor-overload
signature carrying a pinned leading comment, the fast path does NOT return
the original constructor node (and not nothing either): it returns a clone
with the overload comments attached. -/
theorem c3_counterexample :
    transformConstructor ctx0 clsC3 false = .ok (some ctorC3attached, ctx0) ∧
    ctorC3attached ≠ ctorC3 := by
  refine ⟨rfl, fun h => ?_⟩
  have h2 := congrArg CtorDecl.attachedLead h
  simp [ctorC3attached, ctorC3] at h2

/-- C3 (amended): for every class in which no constructor parameter of the
first bodied constructor carries an accessibility modifier (with an
identifier name) and no instance field carries an initializer, constructor
synthesis returns nothing if the class has no constructor with a body; it
returns the original constructor node unchanged when no bodyless
constructor-overload signature carries pinned leading comments, and
otherwise a clone of the original with those comment ranges attached. -/
theorem c3_amended (ctx : TCtx) (node : ClassDecl) (hb : Bool)
    (hpp : ∀ c, getFirstConstructorWithBody node = some c →
      getParametersWithPropertyAssignments c = [])
    (hip : getInitializedProperties node false = []) :
    (getFirstConstructorWithBody node = none →
      transformConstructor ctx node hb = .ok (none, ctx)) ∧
    (∀ c, getFirstConstructorWithBody node = some c →
      (pinnedOverloadComments node = none →
        transformConstructor ctx node hb = .ok (some c, ctx)) ∧
      (∀ l, pinnedOverloadComments node = some l →
        transformConstructor ctx node hb = .ok (some { c with
          attachedLead := concatenateC (some l) c.leadRanges,
          attachedTrail := none }, ctx))) := by
  constructor
  · intro hc
    cases hov : pinnedOverloadComments node <;>
      simp [transformConstructor, hc, hip, hov]
  · intro c hc
    constructor
    · intro hov
      simp [transformConstructor, hc, hip, hpp c hc, hov]
    · intro l hov
      simp [transformConstructor, hc, hip, hpp c hc, hov]

/-- C3 amended, witness at the concrete counterexample class. -/
theorem c3_amended_witness :
    transformConstructor ctx0 clsC3 false = .ok (some { ctorC3 with
      attachedLead := concatenateC (some [7]) ctorC3.leadRanges,
      attachedTrail := none }, ctx0) :=
  ((c3_amended ctx0 clsC3 false
    (fun c hc => by
      rw [show getFirstConstructorWithBody clsC3 = some ctorC3 from rfl] at hc
      cases hc
      rfl)
    rfl).2 ctorC3 rfl).2 [7] rfl

/-- C8: for a decorated, non-instance-scoped member with a computed name
whose name node has no generated name yet, property-name resolution hoists
a fresh generated local, assigns the transformed name expression to it
exactly once (the resolved name is the single assignment
`<generated> = <expression>`), and marks the node; every later resolution
of the same name node in non-instance scope returns the bare generated
identifier and leaves the context unchanged, so the computed-name
expression appears exactly once in the output. -/
theorem c8_computed_name_single_eval (ctx : TCtx) (nid : Nat) (e : Expr)
    (hnew : ctx.generatedMarks.contains nid = false) :
    transformPropertyName ctx (.computedName nid e) true true false =
      .ok (.computedName nid (.assignE (.identE (genName nid)) (transformExpr e)),
        { ctx with generatedMarks := nid :: ctx.generatedMarks,
                   hoisted := genName nid :: ctx.hoisted }) ∧
    (∀ (ctx2 : TCtx) (canDec isDec : Bool),
      ctx2.generatedMarks.contains nid = true →
      transformPropertyName ctx2 (.computedName nid e) canDec isDec false =
        .ok (.idname (genName nid), ctx2)) := by
  constructor
  · have hnew2 : ¬ nid ∈ ctx.generatedMarks := by simpa using hnew
    simp [transformPropertyName, hnew2]
  · intro ctx2 canDec isDec h2
    have h3 : nid ∈ ctx2.generatedMarks := by simpa using h2
    simp [transformPropertyName, h3]

/-- C8 witness: a concrete first resolution followed by a later resolution
with the node already marked. -/
theorem c8_witness :
    transformPropertyName ctx0 (.computedName 5 (.numE 3)) true true false =
      .ok (.computedName 5 (.assignE (.identE (genName 5)) (transformExpr (.numE 3))),
        { ctx0 with generatedMarks := 5 :: ctx0.generatedMarks,
                    hoisted := genName 5 :: ctx0.hoisted }) ∧
    transformPropertyName
        { generatedMarks := [5], hoisted := [genName 5], emitMeta := false }
        (.computedName 5 (.numE 3)) true false false =
      .ok (.idname (genName 5),
        { generatedMarks := [5], hoisted := [genName 5], emitMeta := false }) :=
  ⟨(c8_computed_name_single_eval ctx0 5 (.numE 3) rfl).1,
   (c8_computed_name_single_eval ctx0 5 (.numE 3) rfl).2
     { generatedMarks := [5], hoisted := [genName 5], emitMeta := false }
     true false rfl⟩

/-- C4: for a class with a declared base type, no constructor with a body,
and at least one initialized instance field (all with nameable names), the
synthesized constructor has exactly the one variadic rest parameter
`...args` and its body starts with the single forwarding base call
`super(...args)`, followed by the field-initializer assignments. -/
theorem c4_synthesized_ctor (ctx : TCtx) (node : ClassDecl)
    (hctor : getFirstConstructorWithBody node = none)
    (hne : (getInitializedProperties node false).isEmpty = false)
    (hnames : ((getInitializedProperties node false).all
      fun p => !isPattName p.pname) = true) :
    transformConstructor ctx node true =
      .ok (some { params := [restArgsParam],
                  body := some (superForwardStmt ::
                    (getInitializedProperties node false).map instanceFieldStmtSpec),
                  pinnedLead := none, leadRanges := none, trailRanges := none,
                  attachedLead := pinnedOverloadComments node,
                  attachedTrail := none },
           ctx) ∧
    restArgsParam.isRest = true := by
  have hall : ((getInitializedProperties node false).all
      fun p => !p.isStatic && !isPattName p.pname) = true := by
    rw [List.all_eq_true] at hnames ⊢
    intro p hp
    have h1 := getInitializedProperties_static node false p hp
    have h2 := hnames p hp
    simp only [h1, Bool.not_false, Bool.true_and]
    exact h2
  refine ⟨?_, rfl⟩
  simp only [transformConstructor, hctor, hne]
  simp only [Bool.and_false, List.isEmpty_nil, Bool.true_and, if_false,
    Bind.bind, Except.bind]
  rw [emitPropertyDeclarations_instance node _ ctx hall]
  simp

/-- C4 witness at the concrete class `class D extends B { y = 1; }`. -/
theorem c4_witness :
    transformConstructor ctx0 clsW4 true =
      .ok (some { params := [restArgsParam],
                  body := some (superForwardStmt ::
                    (getInitializedProperties clsW4 false).map instanceFieldStmtSpec),
                  pinnedLead := none, leadRanges := none, trailRanges := none,
                  attachedLead := pinnedOverloadComments clsW4,
                  attachedTrail := none },
           ctx0) ∧
    restArgsParam.isRest = true :=
  c4_synthesized_ctor ctx0 clsW4 rfl rfl rfl

/-- C5: for a class whose (first bodied) constructor has at least one
accessibility-qualified parameter with an identifier name, the synthesized
constructor body is `sup ++ (one this.<name> = <name> assignment per such
parameter, in declared parameter order) ++ (the instance field-initializer
assignments) ++ rest`, where `sup` is empty or the single emitted
base-constructor call — so the parameter-property assignments sit after
any base call and before all field-initializer assignments. -/
theorem c5_param_property_assignments (ctx : TCtx) (node : ClassDecl)
    (hb : Bool) (c : CtorDecl)
    (hc : getFirstConstructorWithBody node = some c)
    (hq : (getParametersWithPropertyAssignments c).isEmpty = false)
    (hnames : ((getInitializedProperties node false).all
      fun p => !isPattName p.pname) = true) :
    ∃ (sup rest : List Stmt) (outC : CtorDecl),
      transformConstructor ctx node hb = .ok (some outC, ctx) ∧
      outC.body = some (sup ++
        (getParametersWithPropertyAssignments c).map paramPropAssignStmt ++
        (getInitializedProperties node false).map instanceFieldStmtSpec ++ rest) ∧
      (sup = [] ∨ ∃ args, sup = [Stmt.exprStmt (.callE .superE args)]) := by
  have hall : ((getInitializedProperties node false).all
      fun p => !p.isStatic && !isPattName p.pname) = true := by
    rw [List.all_eq_true] at hnames ⊢
    intro p hp
    have h1 := getInitializedProperties_static node false p hp
    have h2 := hnames p hp
    simp only [h1, Bool.not_false, Bool.true_and]
    exact h2
  simp only [transformConstructor, hc, hq]
  simp only [Bool.false_and, if_false, Bind.bind, Except.bind]
  rw [emitPropertyDeclarations_instance node _ ctx hall]
  cases hsc : (if hb then findInitialSuperCall c else none) with
  | none =>
    simp only [hsc, Option.isSome_none, Bool.false_eq_true, if_false]
    exact ⟨[], ((c.body.getD []).drop 1).map transformStmt, _, rfl, by simp,
      Or.inl rfl⟩
  | some s =>
    have hshape : ∃ args, s = Stmt.exprStmt (.callE .superE args) := by
      cases hhb : hb with
      | false => rw [hhb] at hsc; exact absurd hsc (by simp)
      | true =>
        rw [hhb] at hsc
        exact findInitialSuperCall_shape c s (by simpa using hsc)
    simp only [hsc, Option.isSome_some, if_true]
    obtain ⟨args, hargs⟩ := hshape
    exact ⟨[s], (c.body.getD []).map transformStmt, _, rfl, by simp,
      Or.inr ⟨args, by rw [hargs]⟩⟩

/-- C5 witness at the concrete class `class E { constructor(public p) {} }`. -/
theorem c5_witness :
    ∃ (sup rest : List Stmt) (outC : CtorDecl),
      transformConstructor ctx0 clsW5 false = .ok (some outC, ctx0) ∧
      outC.body = some (sup ++
        (getParametersWithPropertyAssignments ctorW5).map paramPropAssignStmt ++
        (getInitializedProperties clsW5 false).map instanceFieldStmtSpec ++ rest) ∧
      (sup = [] ∨ ∃ args, sup = [Stmt.exprStmt (.callE .superE args)]) :=
  c5_param_property_assignments ctx0 clsW5 false ctorW5 rfl rfl rfl

/-- C6: class-level decorator lowering emits nothing exactly when neither
the class nor any parameter of its (first bodied) constructor is
decorated; otherwise it emits the single statement
`<publicBinding> = __decorate(list, <publicBinding>)` whose expression
list is the class decorators in source order, then one `__param(index,
decorator)` wrapper per decorator of each decorated constructor parameter
in ascending parameter-index order (source order within a parameter), then
the metadata calls when enabled. -/
theorem c6_class_decorate (ctx : TCtx) (node : ClassDecl) :
    ((node.decorators = [] ∧
      ((ctorParamsOf node).all fun p => p.decorators.isEmpty) = true) →
      emitDecoratorsOfConstructor ctx node = []) ∧
    (¬(node.decorators = [] ∧
      ((ctorParamsOf node).all fun p => p.decorators.isEmpty) = true) →
      emitDecoratorsOfConstructor ctx node =
        [Stmt.exprStmt (.assignE (.identE node.declName)
          (.callE (.identE "__decorate")
            (el [.arrayE (el (node.decorators.map transformExpr ++
                  paramWrapperSpec (ctorParamsOf node) ++
                  (if ctx.emitMeta then [metadataCall "design:paramtypes"]
                   else []))),
                 .identE node.declName])))]) := by
  constructor
  · rintro ⟨hdec, hall⟩
    cases hfc : getFirstConstructorWithBody node with
    | none =>
      simp [emitDecoratorsOfConstructor, hdec, hfc]
    | some c =>
      have hall2 : (c.params.all fun p => p.decorators.isEmpty) = true := by
        unfold ctorParamsOf at hall
        rw [hfc] at hall
        exact hall
      have hany : (c.params.any fun p => !p.decorators.isEmpty) = false := by
        cases hv : c.params.any fun p => !p.decorators.isEmpty with
        | false => rfl
        | true =>
          rw [List.any_eq_true] at hv
          obtain ⟨p, hp, hq⟩ := hv
          rw [List.all_eq_true] at hall2
          have h3 := hall2 p hp
          simp [h3] at hq
      simp [emitDecoratorsOfConstructor, hdec, hfc, hany]
  · intro hn
    have hcond : (node.decorators.isEmpty &&
        !((ctorParamsOf node).any fun p => !p.decorators.isEmpty)) = false := by
      cases hx : (node.decorators.isEmpty &&
        !((ctorParamsOf node).any fun p => !p.decorators.isEmpty)) with
      | false => rfl
      | true =>
        rw [Bool.and_eq_true] at hx
        obtain ⟨h1, h2⟩ := hx
        exfalso
        apply hn
        constructor
        · cases hl : node.decorators with
          | nil => rfl
          | cons d ds => rw [hl] at h1; exact absurd h1 (by simp)
        · rw [List.all_eq_true]
          intro p hp
          cases hpe : p.decorators.isEmpty with
          | true => rfl
          | false =>
            have h4 : ((ctorParamsOf node).any fun p => !p.decorators.isEmpty)
                = true :=
              List.any_eq_true.mpr ⟨p, hp, by simp [hpe]⟩
            rw [h4] at h2
            exact absurd h2 (by simp)
    cases hfc : getFirstConstructorWithBody node with
    | none =>
      have hcp : ctorParamsOf node = [] := by unfold ctorParamsOf; rw [hfc]
      rw [hcp] at hcond
      simp only [List.any_nil, Bool.not_false, Bool.and_true] at hcond
      cases hm : ctx.emitMeta <;>
        simp [emitDecoratorsOfConstructor, hfc, hcond, hcp, hm, metadataClassK,
          paramWrapperSpec, List.enum]
    | some c =>
      have hcp : ctorParamsOf node = c.params := by unfold ctorParamsOf; rw [hfc]
      rw [hcp] at hcond
      cases hm : ctx.emitMeta <;>
        simp [emitDecoratorsOfConstructor, hfc, hcond, hcp, hm, metadataClassK,
          emitDecoratorsOfParameters_eq]

/-- C6 witness at the concrete decorated class
`@dec class F { constructor(@d2 a, b) {} }` (metadata disabled). -/
theorem c6_witness :
    emitDecoratorsOfConstructor ctx0 clsW6 =
      [Stmt.exprStmt (.assignE (.identE clsW6.declName)
        (.callE (.identE "__decorate")
          (el [.arrayE (el (clsW6.decorators.map transformExpr ++
                paramWrapperSpec (ctorParamsOf clsW6) ++
                (if ctx0.emitMeta then [metadataCall "design:paramtypes"]
                 else []))),
               .identE clsW6.declName])))] :=
  (c6_class_decorate ctx0 clsW6).2 (fun h => by
    have h1 := h.1
    rw [show clsW6.decorators = [Expr.identE "dec"] from rfl] at h1
    exact absurd h1 (by simp))

theorem emitMembersFrom_chunks (node : ClassDecl) (isStatic : Bool) :
    ∀ (ms : List Member) (ctx : TCtx) (i : Nat) (out : List Stmt) (ctx2 : TCtx),
    emitDecoratorsOfMembersFrom node isStatic ctx i ms = .ok (out, ctx2) →
    MemberChunks node isStatic ctx i ms out ctx2 := by
  intro ms
  induction ms with
  | nil =>
    intro ctx i out ctx2 h
    simp only [emitDecoratorsOfMembersFrom] at h
    cases h
    exact .nil ctx i
  | cons m rest ih =>
    intro ctx i out ctx2 h
    simp only [emitDecoratorsOfMembersFrom] at h
    split at h
    · next hg => exact .skip _ _ _ _ _ _ (Or.inl hg) (ih _ _ _ _ h)
    · next hg =>
      split at h
      · next hd => exact .skip _ _ _ _ _ _ (Or.inr hd) (ih _ _ _ _ h)
      · next hd =>
        have hg2 : (memberIsStatic m != isStatic) = false := by
          cases hv : memberIsStatic m != isStatic with
          | false => rfl
          | true => exact absurd hv hg
        have hd2 : (!nodeCanBeDecoratedM m || !nodeOrChildIsDecoratedM m) = false := by
          cases hv : !nodeCanBeDecoratedM m || !nodeOrChildIsDecoratedM m with
          | false => rfl
          | true => exact absurd hv hd
        cases he : emitDecoratorsOfMember ctx node i m with
        | error err => rw [he] at h; simp [Bind.bind, Except.bind] at h
        | ok v =>
          obtain ⟨ss, ctx1⟩ := v
          rw [he] at h
          simp only [Bind.bind, Except.bind] at h
          cases hr : emitDecoratorsOfMembersFrom node isStatic ctx1 (i + 1) rest with
          | error err => rw [hr] at h; simp at h
          | ok w =>
            obtain ⟨rest2, ctx3⟩ := w
            rw [hr] at h
            simp only [Except.ok.injEq, Prod.mk.injEq] at h
            obtain ⟨hout, hctx⟩ := h
            subst hout
            subst hctx
            exact .emit _ _ _ _ _ _ _ _ hg2 hd2 he (ih _ _ _ _ hr)

/-- C10 (implicit): for every lowered class, the decorator-lowering
statements come in the fixed group order — all instance-member decorate
statements first, then all static-member decorate statements, then the
class-level (constructor) decorate statement last — and within each group
the per-member contributions are concatenated in member declaration order
(members of the other group, or filtered out, contribute nothing), as
witnessed by the `MemberChunks` decomposition. -/
theorem c10_group_order (ctx : TCtx) (node : ClassDecl) (out : List Stmt)
    (ctx2 : TCtx) (h : emitDecoratorsOfClass ctx node = .ok (out, ctx2)) :
    ∃ sI ctx1 sS,
      emitDecoratorsOfMembers ctx node false = .ok (sI, ctx1) ∧
      emitDecoratorsOfMembers ctx1 node true = .ok (sS, ctx2) ∧
      out = sI ++ sS ++ emitDecoratorsOfConstructor ctx2 node ∧
      MemberChunks node false ctx 0 node.members sI ctx1 ∧
      MemberChunks node true ctx1 0 node.members sS ctx2 := by
  unfold emitDecoratorsOfClass at h
  cases h1 : emitDecoratorsOfMembers ctx node false with
  | error e => rw [h1] at h; simp [Bind.bind, Except.bind] at h
  | ok v =>
    obtain ⟨sI, ctx1⟩ := v
    rw [h1] at h
    simp only [Bind.bind, Except.bind] at h
    cases h2 : emitDecoratorsOfMembers ctx1 node true with
    | error e => rw [h2] at h; simp at h
    | ok w =>
      obtain ⟨sS, ctxS⟩ := w
      rw [h2] at h
      simp only [Except.ok.injEq, Prod.mk.injEq] at h
      obtain ⟨hout, hctx⟩ := h
      subst hctx
      have h1f : emitDecoratorsOfMembersFrom node false ctx 0 node.members =
        .ok (sI, ctx1) := h1
      have h2f : emitDecoratorsOfMembersFrom node true ctx1 0 node.members =
        .ok (sS, ctxS) := h2
      exact ⟨sI, ctx1, sS, rfl, h2, hout.symm,
        emitMembersFrom_chunks node false node.members ctx 0 sI ctx1 h1f,
        emitMembersFrom_chunks node true node.members ctx1 0 sS ctxS h2f⟩

/-- C10 witness at a concrete class with no decorations (the decomposition
instantiated at `clsW10`). -/
theorem c10_witness :
    ∃ sI ctx1 sS,
      emitDecoratorsOfMembers ctx0 clsW10 false = .ok (sI, ctx1) ∧
      emitDecoratorsOfMembers ctx1 clsW10 true = .ok (sS, ctx0) ∧
      ([] : List Stmt) = sI ++ sS ++ emitDecoratorsOfConstructor ctx0 clsW10 ∧
      MemberChunks clsW10 false ctx0 0 clsW10.members sI ctx1 ∧
      MemberChunks clsW10 true ctx1 0 clsW10.members sS ctx0 :=
  c10_group_order ctx0 clsW10 [] ctx0 rfl

/-- C7: for a get/set accessor pair (same non-computed name, same
static-ness, both with bodies, no other matching accessor in the class),
member-level decorator lowering emits nothing at the second-declared
accessor and exactly one statement at the first-declared accessor, whose
decorator list is the first accessor's own decorators, falling back to the
paired accessor's decorators when the first has none, and whose
parameter-decorator wrappers come only from the set accessor's parameter
list. -/
theorem c7_accessor_pair (ctx : TCtx) (node : ClassDecl)
    (pre mid post : List Member) (g s : AccessorDecl) (firstIsGet : Bool)
    (key : String)
    (hmem : node.members = pre ++
      (if firstIsGet then Member.getA g else Member.setA s) ::
      (mid ++ (if firstIsGet then Member.setA s else Member.getA g) :: post))
    (hkg : propNameKey g.aname = some key)
    (hks : propNameKey s.aname = some key)
    (hstat : s.isStatic = g.isStatic)
    (hgb : g.body.isSome = true)
    (hsb : s.body.isSome = true)
    (hpre : (pre.all fun m => !accessorMatches key g.isStatic m) = true)
    (hmid : (mid.all fun m => !accessorMatches key g.isStatic m) = true)
    (hpost : (post.all fun m => !accessorMatches key g.isStatic m) = true) :
    emitDecoratorsOfMember ctx node (pre.length + 1 + mid.length)
      (if firstIsGet then Member.setA s else Member.getA g) = .ok ([], ctx) ∧
    emitDecoratorsOfMember ctx node pre.length
      (if firstIsGet then Member.getA g else Member.setA s) =
      .ok ([memberDecorateStmtSpec
        (if g.isStatic then Expr.identE node.declName
         else Expr.accessE (.identE node.declName) "prototype")
        (propNameRefExprSpec (if firstIsGet then g.aname else s.aname))
        (((if (if firstIsGet then g.decorators else s.decorators).isEmpty
           then (if firstIsGet then s.decorators else g.decorators)
           else (if firstIsGet then g.decorators else s.decorators)).map
            transformExpr) ++
         paramWrapperSpec s.params ++
         (if ctx.emitMeta then [metadataCall "design:paramtypes"] else []))],
        ctx) := by
  have hne1 : ((pre.length + 1 + mid.length) == pre.length) = false := by
    rw [beq_eq_false_iff_ne]
    omega
  cases firstIsGet with
  | true =>
    simp only [if_true]
    simp only [if_true] at hmem
    have hm1 : accessorMatches key g.isStatic (Member.getA g) = true := by
      simp [accessorMatches, accessorDeclOf, hkg]
    have hm2 : accessorMatches key g.isStatic (Member.setA s) = true := by
      simp [accessorMatches, accessorDeclOf, hks, hstat]
    have hlay := scanAccessors_layout key g.isStatic pre mid post _ _
      hm1 hm2 hpre hmid hpost
    have hget2 : node.members.get? (pre.length + 1 + mid.length) =
        some (Member.setA s) := by
      rw [hmem,
        show pre.length + 1 + mid.length = pre.length + (1 + mid.length) by omega,
        get?_append_add, show 1 + mid.length = mid.length + 1 by omega,
        List.get?_cons_succ]
      exact get?_append_self mid _ post
    have hacc1 : getAllAccessorDeclarations node.members pre.length g false =
        { firstIdx := pre.length,
          secondIdx := some (pre.length + 1 + mid.length),
          getIdx := some pre.length,
          setIdx := some (pre.length + 1 + mid.length) } := by
      simp only [getAllAccessorDeclarations, hkg, hmem, hlay, accessorKindOf]
      simp
    have hacc2 : getAllAccessorDeclarations node.members
        (pre.length + 1 + mid.length) s true =
        { firstIdx := pre.length,
          secondIdx := some (pre.length + 1 + mid.length),
          getIdx := some pre.length,
          setIdx := some (pre.length + 1 + mid.length) } := by
      simp only [getAllAccessorDeclarations, hks, hstat, hmem, hlay,
        accessorKindOf]
      simp
    constructor
    · simp only [emitDecoratorsOfMember, hsb, if_true, hacc2, hne1,
        Bool.false_eq_true, if_false]
    · simp only [emitDecoratorsOfMember, hgb, if_true, hacc1, beq_self_eq_true,
        hget2, Option.getD_some, memberDecorators, memberParams]
      rw [emitMemberDecorateCore_nonprop ctx node (Member.getA g) _ s.params key
        (by simpa [memberName] using hkg) rfl]
      cases hde : g.decorators.isEmpty <;>
        simp [hde, getClassMemberTarget, memberIsStatic, memberName]
  | false =>
    simp only [Bool.false_eq_true, if_false]
    simp only [Bool.false_eq_true, if_false] at hmem
    have hm1 : accessorMatches key g.isStatic (Member.setA s) = true := by
      simp [accessorMatches, accessorDeclOf, hks, hstat]
    have hm2 : accessorMatches key g.isStatic (Member.getA g) = true := by
      simp [accessorMatches, accessorDeclOf, hkg]
    have hlay := scanAccessors_layout key g.isStatic pre mid post _ _
      hm1 hm2 hpre hmid hpost
    have hget1 : node.members.get? pre.length = some (Member.setA s) := by
      rw [hmem]
      exact get?_append_self pre _ _
    have hget2 : node.members.get? (pre.length + 1 + mid.length) =
        some (Member.getA g) := by
      rw [hmem,
        show pre.length + 1 + mid.length = pre.length + (1 + mid.length) by omega,
        get?_append_add, show 1 + mid.length = mid.length + 1 by omega,
        List.get?_cons_succ]
      exact get?_append_self mid _ post
    have hacc1 : getAllAccessorDeclarations node.members pre.length s true =
        { firstIdx := pre.length,
          secondIdx := some (pre.length + 1 + mid.length),
          getIdx := some (pre.length + 1 + mid.length),
          setIdx := some pre.length } := by
      simp only [getAllAccessorDeclarations, hks, hstat, hmem, hlay,
        accessorKindOf]
      simp
    have hacc2 : getAllAccessorDeclarations node.members
        (pre.length + 1 + mid.length) g false =
        { firstIdx := pre.length,
          secondIdx := some (pre.length + 1 + mid.length),
          getIdx := some (pre.length + 1 + mid.length),
          setIdx := some pre.length } := by
      simp only [getAllAccessorDeclarations, hkg, hmem, hlay, accessorKindOf]
      simp
    constructor
    · simp only [emitDecoratorsOfMember, hgb, if_true, hacc2, hne1,
        Bool.false_eq_true, if_false]
    · simp only [emitDecoratorsOfMember, hsb, if_true, hacc1, beq_self_eq_true,
        hget1, hget2, Option.getD_some, memberDecorators, memberParams]
      rw [emitMemberDecorateCore_nonprop ctx node (Member.setA s) _ s.params key
        (by simpa [memberName] using hks) rfl]
      cases hde : s.decorators.isEmpty <;>
        simp [hde, getClassMemberTarget, memberIsStatic, memberName, hstat]

/-- C7 witness at the concrete pair `get x() {}` / `@dec set x(v) {}`: the
second-declared (set) accessor yields nothing, the first-declared (get)
accessor yields the single decorate statement built from the setter's
decorators and parameters. -/
theorem c7_witness :
    emitDecoratorsOfMember ctx0 clsW7 1 (Member.setA setW7) = .ok ([], ctx0) ∧
    emitDecoratorsOfMember ctx0 clsW7 0 (Member.getA getW7) =
      .ok ([memberDecorateStmtSpec (Expr.accessE (.identE "G") "prototype")
        Expr.undefE
        ((setW7.decorators.map transformExpr) ++ paramWrapperSpec setW7.params
          ++ [])], ctx0) :=
  c7_accessor_pair ctx0 clsW7 [] [] [] getW7 setW7 true "x" rfl rfl rfl rfl
    rfl rfl rfl rfl rfl

/-- C9: property-name resolution succeeds (returns a property name) exactly
when the declaration's name is not a binding-pattern form — identifiers,
literals and computed names always resolve — and on a pattern-like form it
hard-fails, aborting the pass with the invariant-violation message rather
than producing a recoverable diagnostic. -/
theorem c9_property_name_resolution (ctx : TCtx) (name : PropName)
    (canDec isDec perInst : Bool) :
    isOkE (transformPropertyName ctx name canDec isDec perInst) =
      !isPattName name ∧
    (isPattName name = true →
      transformPropertyName ctx name canDec isDec perInst =
        .error "Binding patterns cannot be used as property names.") := by
  cases name with
  | idname s => exact ⟨rfl, by simp [isPattName]⟩
  | strname s => exact ⟨rfl, by simp [isPattName]⟩
  | numname n => exact ⟨rfl, by simp [isPattName]⟩
  | patternName pid => exact ⟨rfl, fun _ => rfl⟩
  | computedName nid e =>
    refine ⟨?_, by simp [isPattName]⟩
    simp only [transformPropertyName, isPattName, Bool.not_false]
    split
    · rfl
    · split <;> rfl

/-- C9 witness: resolution succeeds on an identifier name and hard-fails on
a binding pattern. -/
theorem c9_witness :
    isOkE (transformPropertyName ctx0 (.idname "m") true true false) =
      !isPattName (.idname "m") ∧
    transformPropertyName ctx0 (.patternName 0) true true false =
      .error "Binding patterns cannot be used as property names." :=
  ⟨(c9_property_name_resolution ctx0 (.idname "m") true true false).1,
   (c9_property_name_resolution ctx0 (.patternName 0) true true false).2 rfl⟩

end ES6
